import Mathlib

/-!
Verification of the EGRET regular-expression scanner (src/Scanner.cpp).

The C++ scanner is shallowly embedded: `std::string` patterns become
`List Char`, the mutable scan index becomes explicit index passing,
thrown `EgretException`s become `Except.error` carrying the same message
string, and the warning accumulator is threaded as a `List String`.
The two unbounded character-consuming loops (`read_digits`,
`scan_to_gt`) and the driver loop (`scan_loop`) take an explicit fuel
argument so that all definitions are structurally recursive and
computable by the kernel; the callers supply fuel larger than the input
length, which is an upper bound on the number of loop iterations, so
the fuel-exhaustion branch is unreachable on the actual calls.
Out-of-bounds `std::vector::operator[]` accesses (undefined behavior in
the C++) are modeled as `Option.none` results of the read-phase
functions.
-/

namespace Egret

/-- Token kinds, mirroring the `TokenType` enum of the scanner (the
constructor set is taken from `token_type_to_str` and the uses
throughout Scanner.cpp). `ERR` doubles as the end-of-stream sentinel
returned by `get_type`. -/
inductive TokenType where
  | ALTERNATION | STAR | PLUS | QUESTION | REPEAT
  | LEFT_PAREN | RIGHT_PAREN | CHARACTER | CHAR_CLASS
  | LEFT_BRACKET | RIGHT_BRACKET | CARET | DOLLAR
  | WORD_BOUNDARY | HYPHEN | NO_GROUP_EXT | NAMED_GROUP_EXT
  | IGNORED_EXT | ERR
  deriving DecidableEq, Repr

/-- The `Token` struct: a kind plus a character payload and the two
repeat bounds. The C++ default constructor leaves fields uninitialized;
the model gives fixed defaults, and the code (like the C++) only ever
reads a field on token kinds for which it assigned that field. -/
structure Token where
  type : TokenType
  character : Char := Char.ofNat 0
  repeat_lower : Int := 0
  repeat_upper : Int := 0
  deriving DecidableEq, Repr

/-- The character `{` (written via its code point). -/
def lbrace : Char := Char.ofNat 123

/-- The character `}` (written via its code point). -/
def rbrace : Char := Char.ofNat 125

/-- The character `'` (written via its code point). -/
def squote : Char := Char.ofNat 39

/-- The character `"` (written via its code point). -/
def dquote : Char := Char.ofNat 34

/-- `Scanner::get_next_char` (Scanner.cpp lines 326-334): advance the
index, fail with the premature-end error if the new index is out of
bounds, otherwise return the character there together with the new
index. -/
def get_next_char (in_ : List Char) (idx : Nat) : Except String (Char × Nat) :=
  match in_[idx + 1]? with
  | some c => .ok (c, idx + 1)
  | none => .error "ERROR: Input string ended prematurely"

/-- Mathematical (unbounded) decimal value of a digit string. -/
def digitsVal (ds : List Char) : Nat :=
  ds.foldl (fun a c => a * 10 + (c.toNat - 48)) 0

/-- `stringstream >> int` extraction of an all-digit string, as used by
`process_repeat` to read the repeat bounds (Scanner.cpp lines 576, 589,
621): for values that do not fit in a 32-bit `int`, C++11 `num_get`
stores the most positive representable value (`INT_MAX = 2147483647`)
and sets the failbit, which the scanner never checks — so the
extraction saturates at `INT_MAX`. -/
def readIntVal (ds : List Char) : Int :=
  if digitsVal ds ≤ 2147483647 then (digitsVal ds : Int) else 2147483647

/-- The digit-collecting loops of `process_repeat` (Scanner.cpp lines
560-565 and 605-610): keep consuming characters via `get_next_char`
while they are digits; return the collected digits, the stopping
character and the index of the stopping character. `fuel` bounds the
number of iterations (callers pass more than the input length). -/
def read_digits (in_ : List Char) (fuel : Nat) (idx : Nat) (acc : List Char) :
    Except String (List Char × Char × Nat) :=
  match get_next_char in_ idx with
  | .error e => .error e
  | .ok (c, idx') =>
    if c.isDigit then
      match fuel with
      | 0 => .error "INTERNAL ERROR: scan fuel exhausted"
      | fuel' + 1 => read_digits in_ fuel' idx' (acc ++ [c])
    else .ok (acc, c, idx')

/-- `Scanner::process_repeat` (Scanner.cpp lines 532-661): tentative
parse of a repeat quantifier after an opening brace at `idx`. On a
grammar mismatch the entry index is returned together with a literal
brace `CHARACTER` token (rollback); premature end of input inside
`get_next_char` is a hard error, since the exception propagates. -/
def process_repeat (in_ : List Char) (idx : Nat) : Except String (Token × Nat) :=
  let current_idx := idx
  let token0 : Token := { type := .CHARACTER, character := lbrace }
  match read_digits in_ (in_.length + 1) idx [] with
  | .error e => .error e
  | .ok (count_str, c, idx1) =>
    if c = ',' then
      let token1 := { token0 with
        repeat_lower := if count_str = [] then -1 else readIntVal count_str }
      match read_digits in_ (in_.length + 1) idx1 [] with
      | .error e => .error e
      | .ok (count_str2, c2, idx2) =>
        if c2 = rbrace then
          let token2 := { token1 with
            repeat_upper := if count_str2 = [] then -1 else readIntVal count_str2 }
          if token2.repeat_lower = -1 ∧ token2.repeat_upper = -1 then
            .ok (token2, current_idx)
          else
            let token3 :=
              if token2.repeat_lower = -1 then { token2 with repeat_lower := 0 } else token2
            if token3.repeat_upper = -1 then
              .ok ({ token3 with type := .REPEAT }, idx2)
            else if token3.repeat_lower > token3.repeat_upper then
              .error ("ERROR: Invalid repeat quantifier: lower bound "
                ++ toString token3.repeat_lower ++ " is greater than upper bound "
                ++ toString token3.repeat_upper ++ "\n")
            else if token3.repeat_upper = 0 then
              .error "ERROR: pointless repeat quantifier \x7b0,0\x7d"
            else .ok ({ token3 with type := .REPEAT }, idx2)
        else .ok (token1, current_idx)
    else if c = rbrace then
      if count_str = [] then .ok (token0, current_idx)
      else
        let token1 := { token0 with
          type := .REPEAT
          repeat_lower := readIntVal count_str
          repeat_upper := readIntVal count_str }
        if token1.repeat_upper = 0 then
          .error "ERROR: pointless repeat quantifier \x7b0\x7d"
        else .ok (token1, idx1)
    else .ok (token0, current_idx)

/-- The one-digit error cases of `Scanner::process_octal` (Scanner.cpp
lines 355-363): `\0` alone is an unsupported null escape, any other
single digit an unsupported backreference. -/
def octal_one_digit_error (first_digit : Char) : Except String (Token × Nat) :=
  if first_digit = '0' then .error "ERROR: contains unsupported character \\0"
  else .error ("ERROR: contains unsupported backreference value \\" ++ first_digit.toString)

/-- The tail of `Scanner::process_octal` (Scanner.cpp lines 384-396):
range-check the decoded value and build the literal token. -/
def octal_finish (octal_value : Nat) (idx' : Nat) : Except String (Token × Nat) :=
  if octal_value < 32 ∨ octal_value > 126 then
    .error ("ERROR: contains unsupported octal value " ++ toString octal_value)
  else .ok ({ type := .CHARACTER, character := Char.ofNat octal_value }, idx')

/-- `Scanner::process_octal` (Scanner.cpp lines 336-397): `idx` is the
position of the already-consumed first digit. -/
def process_octal (in_ : List Char) (idx : Nat) (first_digit : Char) :
    Except String (Token × Nat) :=
  match in_[idx + 1]? with
  | none => octal_one_digit_error first_digit
  | some second_digit =>
    if second_digit < '0' ∨ second_digit > '7' then octal_one_digit_error first_digit
    else
      match in_[idx + 2]? with
      | some third_digit =>
        if '0' ≤ third_digit ∧ third_digit ≤ '7' then
          octal_finish ((first_digit.toNat - 48) * 64 + (second_digit.toNat - 48) * 8
            + (third_digit.toNat - 48)) (idx + 2)
        else
          octal_finish ((first_digit.toNat - 48) * 8 + (second_digit.toNat - 48)) (idx + 1)
      | none =>
        octal_finish ((first_digit.toNat - 48) * 8 + (second_digit.toNat - 48)) (idx + 1)

/-- The leading-zero loop of `Scanner::process_hex` (Scanner.cpp lines
404-411): the `count` digits beyond the rightmost two must all be the
literal `0`, each fetched via `get_next_char`. -/
def hex_zeros (in_ : List Char) (num_digits : Nat) : Nat → Nat → Except String Nat
  | 0, idx => .ok idx
  | count + 1, idx =>
    match get_next_char in_ idx with
    | .error e => .error e
    | .ok (d, idx') =>
      if d ≠ '0' then
        .error ("ERROR: Unsupported " ++ toString num_digits ++ "-digit hex number")
      else hex_zeros in_ num_digits count idx'

/-- The per-digit branches of `Scanner::process_hex` (Scanner.cpp lines
419-446): value of a case-insensitive hex digit, or the invalid-digit
error. -/
def hex_digit_value (d : Char) : Except String Nat :=
  if '0' ≤ d ∧ d ≤ '9' then .ok (d.toNat - 48)
  else if 'A' ≤ d ∧ d ≤ 'F' then .ok (d.toNat - 65 + 10)
  else if 'a' ≤ d ∧ d ≤ 'f' then .ok (d.toNat - 97 + 10)
  else .error ("ERROR: Invalid hex digit " ++ d.toString)

/-- `Scanner::process_hex` (Scanner.cpp lines 399-461): `idx` is the
position of the `x`/`u`/`U`; `num_digits` is 2, 4 or 8. -/
def process_hex (in_ : List Char) (idx : Nat) (num_digits : Nat) :
    Except String (Token × Nat) :=
  match hex_zeros in_ num_digits (num_digits - 2) idx with
  | .error e => .error e
  | .ok idx0 =>
    match get_next_char in_ idx0 with
    | .error e => .error e
    | .ok (first_digit, idx1) =>
      match get_next_char in_ idx1 with
      | .error e => .error e
      | .ok (second_digit, idx2) =>
        match hex_digit_value first_digit with
        | .error e => .error e
        | .ok v1 =>
          match hex_digit_value second_digit with
          | .error e => .error e
          | .ok v2 =>
            let hex_value := v1 * 16 + v2
            if hex_value < 32 ∨ hex_value > 126 then
              .error ("ERROR: contains unsupported hex value " ++ toString hex_value)
            else .ok ({ type := .CHARACTER, character := Char.ofNat hex_value }, idx2)

/-- The named-group loop of `Scanner::process_extension` (Scanner.cpp
lines 485-487): consume characters until and including a `>`. `fuel`
bounds the number of iterations (the caller passes more than the input
length). -/
def scan_to_gt (in_ : List Char) (fuel : Nat) (c : Char) (idx : Nat) : Except String Nat :=
  if c = '>' then .ok idx
  else
    match fuel with
    | 0 => .error "INTERNAL ERROR: scan fuel exhausted"
    | fuel' + 1 =>
      match get_next_char in_ idx with
      | .error e => .error e
      | .ok (c', idx') => scan_to_gt in_ fuel' c' idx'

/-- `Scanner::process_extension` (Scanner.cpp lines 463-530): dispatch
on the character after the `?` that follows a `LEFT_PAREN` token.
Returns the token, the new index and the warnings it emitted. -/
def process_extension (in_ : List Char) (idx : Nat) :
    Except String (Token × Nat × List String) :=
  match get_next_char in_ idx with
  | .error e => .error e
  | .ok (ext, idx1) =>
    if ext = ':' then .ok ({ type := .NO_GROUP_EXT }, idx1, [])
    else if ext = 'P' then
      match get_next_char in_ idx1 with
      | .error e => .error e
      | .ok (c, idx2) =>
        if c = '=' then .error "ERROR: Unsupported named backreference: (?P="
        else if c ≠ '<' then
          .error "ERROR: Improperly specified named group - expected < after (?P"
        else
          match scan_to_gt in_ (in_.length + 1) c idx2 with
          | .error e => .error e
          | .ok idx3 => .ok ({ type := .NAMED_GROUP_EXT }, idx3, [])
    else if ext = '#' ∨ ext = '=' ∨ ext = '!' then
      .ok ({ type := .IGNORED_EXT }, idx1,
        ["Regex contains ignored extension ?" ++ ext.toString])
    else if ext = '<' then
      match get_next_char in_ idx1 with
      | .error e => .error e
      | .ok (c, idx2) =>
        if c = '=' ∨ c = '!' then
          .ok ({ type := .IGNORED_EXT }, idx2,
            ["Regex contains ignored extension ?<" ++ c.toString])
        else .error ("ERROR: Unsupported extension ?<" ++ c.toString)
    else .error ("ERROR: Unsupported extension ?" ++ ext.toString)

/-- The C++ tests of the form `tokens.size() > 0 && tokens.back().type == ty`
used in the dispatch of `]`, `-` and `?` (Scanner.cpp lines 145, 163, 233). -/
def lastTokIs (tokens : List Token) (ty : TokenType) : Bool :=
  match tokens.getLast? with
  | some t => t.type = ty
  | none => false

/-- The C++ lookahead tests of the form `(idx + 1) < in.length() && in[idx + 1] == c`
used in the dispatch of `-`, `*`, `+`, `?` and `{` (Scanner.cpp lines
168, 203, 221, 243, 300). -/
def nextIs (in_ : List Char) (idx : Nat) (c : Char) : Bool :=
  match in_[idx + 1]? with
  | some d => d = c
  | none => false

/-- One iteration of the `while` loop of `Scanner::init` (Scanner.cpp
lines 41-321): the per-character dispatch `switch (in[idx])`, including
the inline escape processing of the backslash case. Returns the token
to append, the index of the last character the iteration consumed (the
loop then advances past it), the new inside-a-set flag and the warnings
emitted. -/
def scan_step (in_ : List Char) (idx : Nat) (in_set : Bool) (tokens : List Token)
    (ch : Char) : Except String (Token × Nat × Bool × List String) :=
  if ch = '\\' then
    match get_next_char in_ idx with
    | .error e => .error e
    | .ok (c, idx1) =>
      if c = 'd' ∨ c = 'D' ∨ c = 'w' ∨ c = 'W' ∨ c = 's' ∨ c = 'S' then
        .ok ({ type := .CHAR_CLASS, character := c }, idx1, in_set, [])
      else if c = 'A' then .ok ({ type := .CARET }, idx1, in_set, [])
      else if c = 'Z' then .ok ({ type := .DOLLAR }, idx1, in_set, [])
      else if c = 'b' then
        if in_set then .error "ERROR: contains unsupported character \\b"
        else .ok ({ type := .WORD_BOUNDARY }, idx1, in_set, ["Regex contains ignored \\b"])
      else if c = 'B' then
        .ok ({ type := .WORD_BOUNDARY }, idx1, in_set, ["Regex contains ignored \\B"])
      else if c = 'a' ∨ c = 'f' ∨ c = 'n' ∨ c = 'r' ∨ c = 't' ∨ c = 'v' ∨ c = 'p' then
        .error ("ERROR: contains unsupported character \\" ++ c.toString)
      else if c = '\\' then .ok ({ type := .CHARACTER, character := '\\' }, idx1, in_set, [])
      else if c = squote then .ok ({ type := .CHARACTER, character := squote }, idx1, in_set, [])
      else if c = dquote then .ok ({ type := .CHARACTER, character := dquote }, idx1, in_set, [])
      else if c.isDigit then
        match process_octal in_ idx1 c with
        | .error e => .error e
        | .ok (t, idx2) => .ok (t, idx2, in_set, [])
      else if c = 'x' then
        match process_hex in_ idx1 2 with
        | .error e => .error e
        | .ok (t, idx2) => .ok (t, idx2, in_set, [])
      else if c = 'u' then
        match process_hex in_ idx1 4 with
        | .error e => .error e
        | .ok (t, idx2) => .ok (t, idx2, in_set, [])
      else if c = 'U' then
        match process_hex in_ idx1 8 with
        | .error e => .error e
        | .ok (t, idx2) => .ok (t, idx2, in_set, [])
      else .ok ({ type := .CHARACTER, character := c }, idx1, in_set, [])
  else if ch = '[' then
    if in_set then .ok ({ type := .CHARACTER, character := ch }, idx, in_set, [])
    else .ok ({ type := .LEFT_BRACKET }, idx, true, [])
  else if ch = ']' then
    if in_set && lastTokIs tokens .LEFT_BRACKET then
      .ok ({ type := .CHARACTER, character := ch }, idx, in_set, [])
    else if in_set then .ok ({ type := .RIGHT_BRACKET }, idx, false, [])
    else .ok ({ type := .CHARACTER, character := ch }, idx, in_set, [])
  else if ch = '-' then
    if in_set && lastTokIs tokens .LEFT_BRACKET then
      .ok ({ type := .CHARACTER, character := ch }, idx, in_set, [])
    else if in_set && nextIs in_ idx ']' then
      .ok ({ type := .CHARACTER, character := ch }, idx, in_set, [])
    else if in_set then .ok ({ type := .HYPHEN }, idx, in_set, [])
    else .ok ({ type := .CHARACTER, character := ch }, idx, in_set, [])
  else if ch = '|' then
    if in_set then .ok ({ type := .CHARACTER, character := ch }, idx, in_set, [])
    else .ok ({ type := .ALTERNATION }, idx, in_set, [])
  else if ch = '*' then
    if in_set then .ok ({ type := .CHARACTER, character := ch }, idx, in_set, [])
    else if nextIs in_ idx '?' then .ok ({ type := .STAR }, idx + 1, in_set, [])
    else .ok ({ type := .STAR }, idx, in_set, [])
  else if ch = '+' then
    if in_set then .ok ({ type := .CHARACTER, character := ch }, idx, in_set, [])
    else if nextIs in_ idx '?' then .ok ({ type := .PLUS }, idx + 1, in_set, [])
    else .ok ({ type := .PLUS }, idx, in_set, [])
  else if ch = '?' then
    if lastTokIs tokens .LEFT_PAREN then
      match process_extension in_ idx with
      | .error e => .error e
      | .ok (t, idx', ws) => .ok (t, idx', in_set, ws)
    else if in_set then .ok ({ type := .CHARACTER, character := ch }, idx, in_set, [])
    else if nextIs in_ idx '?' then .ok ({ type := .QUESTION }, idx + 1, in_set, [])
    else .ok ({ type := .QUESTION }, idx, in_set, [])
  else if ch = '(' then
    if in_set then .ok ({ type := .CHARACTER, character := ch }, idx, in_set, [])
    else .ok ({ type := .LEFT_PAREN }, idx, in_set, [])
  else if ch = ')' then
    if in_set then .ok ({ type := .CHARACTER, character := ch }, idx, in_set, [])
    else .ok ({ type := .RIGHT_PAREN }, idx, in_set, [])
  else if ch = '.' then
    if in_set then .ok ({ type := .CHARACTER, character := ch }, idx, in_set, [])
    else .ok ({ type := .CHAR_CLASS, character := ch }, idx, in_set, [])
  else if ch = lbrace then
    if in_set then .ok ({ type := .CHARACTER, character := ch }, idx, in_set, [])
    else
      match process_repeat in_ idx with
      | .error e => .error e
      | .ok (t, idx') =>
        if t.type ≠ .CHARACTER ∧ nextIs in_ idx' '?' then .ok (t, idx' + 1, in_set, [])
        else .ok (t, idx', in_set, [])
  else if ch = '^' then .ok ({ type := .CARET }, idx, in_set, [])
  else if ch = '$' then .ok ({ type := .DOLLAR }, idx, in_set, [])
  else .ok ({ type := .CHARACTER, character := ch }, idx, in_set, [])

/-- The `while (idx < in.length())` loop of `Scanner::init` (Scanner.cpp
lines 41-321): dispatch on each character, append the resulting token,
and continue just past the last consumed character. `fuel` bounds the
number of iterations; `init` passes `in.length + 1`, which suffices
because every iteration consumes at least one character. -/
def scan_loop (in_ : List Char) (fuel : Nat) (idx : Nat) (in_set : Bool)
    (tokens : List Token) (warnings : List String) :
    Except String (List Token × List String) :=
  match in_[idx]? with
  | none => .ok (tokens, warnings)
  | some ch =>
    match fuel with
    | 0 => .error "INTERNAL ERROR: scan fuel exhausted"
    | fuel' + 1 =>
      match scan_step in_ idx in_set tokens ch with
      | .error e => .error e
      | .ok (tok, idx', in_set', ws) =>
        scan_loop in_ fuel' (idx' + 1) in_set' (tokens ++ [tok]) (warnings ++ ws)

/-- `Scanner::init` (Scanner.cpp lines 36-324): scan the whole pattern,
producing the token sequence and the warning list (the final
`index = 0` cursor reset is implicit: the read-phase functions below
take the cursor as an argument). -/
def init (p : List Char) : Except String (List Token × List String) :=
  scan_loop p (p.length + 1) 0 false [] []

/-- `Scanner::get_type` (Scanner.cpp lines 663-670): the token type at
the cursor, or the `ERR` sentinel at or past the end. -/
def get_type (tokens : List Token) (index : Nat) : TokenType :=
  match tokens[index]? with
  | some t => t.type
  | none => .ERR

/-- `Scanner::get_repeat_lower` (Scanner.cpp lines 678-685): `assert`
that the cursor token is a `REPEAT`, then return its lower bound. A
failed `assert` aborts the program, modeled as `none`. -/
def get_repeat_lower (tokens : List Token) (index : Nat) : Option Int :=
  if get_type tokens index = .REPEAT then
    (tokens[index]?).map (fun t => t.repeat_lower)
  else none

/-- `Scanner::get_repeat_upper` (Scanner.cpp lines 687-694): `assert`
that the cursor token is a `REPEAT`, then return its upper bound. A
failed `assert` aborts the program, modeled as `none`. -/
def get_repeat_upper (tokens : List Token) (index : Nat) : Option Int :=
  if get_type tokens index = .REPEAT then
    (tokens[index]?).map (fun t => t.repeat_upper)
  else none

/-- `Scanner::get_character` (Scanner.cpp lines 696-703): `assert` that
the cursor token is a `CHARACTER` or `CHAR_CLASS`, then return its
character. -/
def get_character (tokens : List Token) (index : Nat) : Option Char :=
  if get_type tokens index = .CHARACTER ∨ get_type tokens index = .CHAR_CLASS then
    (tokens[index]?).map (fun t => t.character)
  else none

/-- The `valid_prev_type` disjunction of `Scanner::is_concat`
(Scanner.cpp lines 719-730). -/
def valid_prev_type (ty : TokenType) : Bool :=
  ty = .STAR ∨ ty = .PLUS ∨ ty = .QUESTION ∨ ty = .REPEAT ∨ ty = .RIGHT_PAREN ∨
    ty = .CHARACTER ∨ ty = .CARET ∨ ty = .DOLLAR ∨ ty = .WORD_BOUNDARY ∨
    ty = .CHAR_CLASS ∨ ty = .RIGHT_BRACKET

/-- The `invalid_next_type` disjunction of `Scanner::is_concat`
(Scanner.cpp lines 732-739). -/
def invalid_next_type (ty : TokenType) : Bool :=
  ty = .ALTERNATION ∨ ty = .STAR ∨ ty = .PLUS ∨ ty = .QUESTION ∨ ty = .REPEAT ∨
    ty = .RIGHT_PAREN ∨ ty = .RIGHT_BRACKET

/-- `Scanner::is_concat` (Scanner.cpp lines 711-742). The C++ reads
`tokens[index - 1]` *before* the `index >= tokens.size()` bounds check;
`index` is unsigned, so at `index = 0` the subtraction wraps around and
the read is out of bounds, as it also is for `index - 1 >= size`. Those
undefined-behavior reads are modeled as `none`. -/
def is_concat (tokens : List Token) (index : Nat) : Option Bool :=
  if index = 0 then none
  else
    match tokens[index - 1]? with
    | none => none
    | some prev =>
      let next_type := get_type tokens index
      if tokens.length ≤ index then some false
      else some (valid_prev_type prev.type && !invalid_next_type next_type)

/-- 64-bit `size_t` subtraction of 3, as evaluated in the guard
`index > tokens.size() - 3` of `Scanner::is_char_range`: for sizes
below 3 the unsigned subtraction wraps around. -/
def size_sub3 (n : Nat) : Nat := (n + 2 ^ 64 - 3) % 2 ^ 64

/-- `Scanner::is_char_range` (Scanner.cpp lines 744-774). The result is
`none` for an out-of-bounds `tokens[...]` read (undefined behavior),
`some (.error msg)` for a thrown `EgretException`, and `some (.ok b)`
for a normal return. -/
def is_char_range (tokens : List Token) (index : Nat) : Option (Except String Bool) :=
  if index > size_sub3 tokens.length then some (.ok false)
  else
    match tokens[index + 1]? with
    | none => none
    | some t1 =>
      if t1.type ≠ .HYPHEN then some (.ok false)
      else
        match tokens[index]?, tokens[index + 2]? with
        | some t0, some t2 =>
          if t0.type = .CHARACTER ∧ t2.type = .CHARACTER then
            if t0.character > t2.character then
              some (.error ("ERROR: Improperly formed range " ++ t0.character.toString
                ++ "-" ++ t2.character.toString ++ "\n"))
            else some (.ok true)
          else if t0.type = .CHARACTER ∧ t2.type = .CHAR_CLASS then
            some (.error "ERROR: Improperly constructed range using char class")
          else if t0.type = .CHAR_CLASS ∧ t2.type = .CHARACTER then
            some (.error "ERROR: Improperly constructed range using char class")
          else if t0.type = .CHAR_CLASS ∧ t2.type = .CHAR_CLASS then
            some (.error "ERROR: Improperly constructed range using char class")
          else some (.ok false)
        | _, _ => none

/-- The bound invariant a finished `REPEAT` token is expected to
satisfy: the lower bound is a concrete value ≥ 0, the upper bound is
either a concrete value ≥ 0 or the `-1` unbounded sentinel. -/
def repeatBoundsOk (t : Token) : Prop :=
  t.type = .REPEAT → 0 ≤ t.repeat_lower ∧ (0 ≤ t.repeat_upper ∨ t.repeat_upper = -1)

/-! ## Theorems -/

/-- Claim C1: the claim says a premature end of input inside the repeat
parser is handled by soft rollback and never escalated to a hard error.
The code contradicts this (and its own comment block, which promises a
literal match on any deviation and names lower-greater-than-upper as
the only possible error): on the pattern `a{3` the shared
bounds-checked primitive `get_next_char` throws the premature-end
error, which `process_repeat` never catches, so the scan aborts with
that hard error instead of emitting a literal brace token. -/
theorem C1_premature_end_hard_error :
    init ['a', lbrace, '3'] = .error "ERROR: Input string ended prematurely" := rfl

/-- Counterexample to claim C2: scanning `a{3,}` succeeds, the token at
cursor 1 is a finished `REPEAT` token, and `get_repeat_upper` hands the
internal sentinel `-1` straight to the consumer — there is no distinct
"unbounded" marker. -/
theorem C2_cex_upper_minus_one :
    (init ['a', lbrace, '3', ',', rbrace]).map (fun r => get_repeat_upper r.1 1) =
        .ok (some (-1)) ∧
    (init ['a', lbrace, '3', ',', rbrace]).map (fun r => get_type r.1 1) =
        .ok .REPEAT :=
  ⟨rfl, rfl⟩

/-- Counterexample to claim C3: for the empty token stream with the
cursor at 0 the cursor is at the end, yet `is_concat` does not return
false: it reads `tokens[index - 1]` (an out-of-bounds access after the
unsigned wrap-around of `0 - 1`, modeled as `none`) before the
at-or-past-end check ever executes. -/
theorem C3_cex_reads_before_check :
    List.length ([] : List Token) ≤ 0 ∧
    is_concat ([] : List Token) 0 = none ∧
    (none : Option Bool) ≠ some false :=
  ⟨le_refl 0, rfl, by decide⟩

/-- Claim C4: the claim says `is_char_range` guards that positions
`i + 1` and `i + 2` exist and returns false with no out-of-bounds
access whenever fewer than three tokens remain, including streams with
fewer than three tokens in total. The guard `index > tokens.size() - 3`
is evidently meant to do exactly that, but `size()` is unsigned, so for
streams shorter than three tokens the subtraction wraps around, the
guard never fires, and `tokens[index + 1]` is read out of bounds
(undefined behavior, modeled as `none`) instead of returning false. -/
theorem C4_guard_underflow_oob :
    is_char_range [{ type := .CHARACTER, character := 'a' }] 0 = none ∧
    is_char_range ([] : List Token) 0 = none :=
  ⟨rfl, rfl⟩

/-- Counterexample to claim C5: the quantifier `{,0}` has the form
`{,m}` with m a decimal integer, yet the parser does not succeed — it
raises the pointless-quantifier hard error (as the code comment, but
not the claim, announces for `{,0}`). -/
theorem C5_cex_comma_zero :
    process_repeat [lbrace, ',', '0', rbrace] 0 =
      .error "ERROR: pointless repeat quantifier \x7b0,0\x7d" := rfl

/-- Counterexample to claim C6: the pattern `.` contains no backslash,
square bracket, curly brace or parenthesis, yet its character is
tokenized as a `CHAR_CLASS` token, not a literal `CHARACTER` token. -/
theorem C6_cex_dot :
    init ['.'] = .ok ([{ type := .CHAR_CLASS, character := '.' }], []) ∧
    TokenType.CHAR_CLASS ≠ TokenType.CHARACTER :=
  ⟨rfl, by decide⟩

/-- Claim C8: an unescaped `^` yields a `CARET` token and an unescaped
`$` a `DOLLAR` token unconditionally — the dispatch step returns them
for every position, every token history and both values of the
inside-a-set flag (unlike the set-flag-sensitive cases), as the
concrete in-set scan of `[^$` ++ `]`-free text also shows. -/
theorem C8_caret_dollar_unconditional :
    (∀ (in_ : List Char) (idx : Nat) (in_set : Bool) (tokens : List Token),
      scan_step in_ idx in_set tokens '^' = .ok ({ type := .CARET }, idx, in_set, []) ∧
      scan_step in_ idx in_set tokens '$' = .ok ({ type := .DOLLAR }, idx, in_set, [])) ∧
    init ['[', '^', '$'] =
      .ok ([{ type := .LEFT_BRACKET }, { type := .CARET }, { type := .DOLLAR }], []) :=
  ⟨fun _ _ _ _ => ⟨rfl, rfl⟩, rfl⟩

/-- Witness for C8: the universally quantified part applied at a
concrete input, inside a bracket set. -/
theorem C8_caret_dollar_witness :
    scan_step ['x'] 0 true [] '^' = .ok ({ type := .CARET }, 0, true, []) :=
  (C8_caret_dollar_unconditional.1 ['x'] 0 true []).1

/-- Claim C9 (amended): scanning `a{3, 4}` rolls the quantifier back
because of the embedded space and produces one literal `CHARACTER`
token per character — six of them for `{`, `3`, `,`, the space, `4`,
`}` after the `a` — with no `REPEAT` token, no error and no warning. -/
theorem C9_space_rollback_literals :
    (init ['a', lbrace, '3', ',', ' ', '4', rbrace]).map
        (fun r => (r.1.map (fun t => (t.type, t.character)), r.2)) =
      .ok ([(.CHARACTER, 'a'), (.CHARACTER, lbrace), (.CHARACTER, '3'), (.CHARACTER, ','),
        (.CHARACTER, ' '), (.CHARACTER, '4'), (.CHARACTER, rbrace)], []) := rfl

/-- Counterexample to claim C9 as stated: the failed quantifier does
not contribute five literal tokens; the stream for `a{3, 4}` holds
seven tokens (the `a` plus six literals), not six. -/
theorem C9_cex_not_five :
    (init ['a', lbrace, '3', ',', ' ', '4', rbrace]).map (fun r => r.1.length) = .ok 7 ∧
    (7 : Nat) ≠ 6 :=
  ⟨rfl, by decide⟩

/-- Counterexample to claim C10 as stated: `[\b` is a pattern whose
opening `[` starts a bracket set that is never closed, yet the scan
does not complete successfully — the `\b`-inside-a-set hard error fires
first. Balance itself is still never checked (see the amended claim's
theorem). -/
theorem C10_cex_unclosed_set_error :
    init ['[', '\\', 'b'] = .error "ERROR: contains unsupported character \\b" := rfl

/-- Claim C3 (amended): `is_concat` reads the token before the cursor
*before* the at-or-past-end check, so "false with no read" holds for no
at-or-past-end position; in the only such configuration where that
early read is in bounds — the cursor exactly at the end of a nonempty
stream — it does return false. -/
theorem C3_is_concat_at_end_of_nonempty (tokens : List Token) (index : Nat)
    (hlen : index = tokens.length) (hpos : 0 < index) :
    is_concat tokens index = some false := by
  have h0 : ¬ index = 0 := by omega
  have h1 : index - 1 < tokens.length := by omega
  have h2 : tokens.length ≤ index := by omega
  simp [is_concat, h0, List.getElem?_eq_getElem h1, h2]

/-- Witness for C3's amended theorem: a one-token stream with the
cursor at its end. -/
theorem C3_is_concat_at_end_witness :
    is_concat [{ type := .CHARACTER, character := 'a' }] 1 = some false :=
  C3_is_concat_at_end_of_nonempty [{ type := .CHARACTER, character := 'a' }] 1 rfl
    (by decide)

/-- Claim C10 (amended): the scanner performs no bracket or parenthesis
balance validation: reaching the end of the input is never itself an
error or a warning, whatever the inside-a-set flag and accumulated
state are, so `[ab` scans to LeftBracket, a, b with no warnings, and
patterns with unmatched parentheses scan successfully — though a
pattern with an unclosed set can still fail on an unrelated construct
inside it (see the counterexample). -/
theorem C10_no_balance_validation :
    (∀ (in_ : List Char) (fuel idx : Nat) (in_set : Bool) (tokens : List Token)
        (warnings : List String), in_.length ≤ idx →
        scan_loop in_ fuel idx in_set tokens warnings = .ok (tokens, warnings)) ∧
    init ['[', 'a', 'b'] = .ok ([{ type := .LEFT_BRACKET },
      { type := .CHARACTER, character := 'a' }, { type := .CHARACTER, character := 'b' }], []) ∧
    init ['('] = .ok ([{ type := .LEFT_PAREN }], []) ∧
    init [')', 'a'] =
      .ok ([{ type := .RIGHT_PAREN }, { type := .CHARACTER, character := 'a' }], []) := by
  refine ⟨?_, rfl, rfl, rfl⟩
  intro in_ fuel idx in_set tokens warnings h
  simp [scan_loop, List.getElem?_eq_none h]

/-- Witness for C10's amended theorem: end of input reached with the
inside-a-set flag still true and pending state, returned untouched. -/
theorem C10_no_balance_validation_witness :
    scan_loop ['a'] 5 3 true [{ type := .LEFT_BRACKET }] ["w"] =
      .ok ([{ type := .LEFT_BRACKET }], ["w"]) :=
  C10_no_balance_validation.1 ['a'] 5 3 true [{ type := .LEFT_BRACKET }] ["w"] (by decide)

/-- Element lookup through a `List.drop` equation. -/
theorem getElem?_of_drop {in_ l : List Char} {idx : Nat} (h : List.drop idx in_ = l)
    (k : Nat) : in_[idx + k]? = l[k]? := by
  rw [← List.getElem?_drop, h]

/-- Behavior of the digit-collecting loop on an input whose text after
`idx` is a digit string followed by a non-digit stop character. -/
theorem read_digits_spec (ds : List Char) :
    ∀ (in_ rest : List Char) (fuel idx : Nat) (acc : List Char) (c : Char),
      List.drop (idx + 1) in_ = ds ++ c :: rest →
      (∀ d ∈ ds, d.isDigit = true) → c.isDigit = false → ds.length < fuel →
      read_digits in_ fuel idx acc = .ok (acc ++ ds, c, idx + 1 + ds.length) := by
  induction ds with
  | nil =>
    intro in_ rest fuel idx acc c h hds hc hfuel
    have hg : in_[idx + 1]? = some c := by
      have := getElem?_of_drop h 0
      simpa using this
    unfold read_digits get_next_char
    rw [hg]
    simp [hc]
  | cons d ds ih =>
    intro in_ rest fuel idx acc c h hds hc hfuel
    have hg : in_[idx + 1]? = some d := by
      have := getElem?_of_drop h 0
      simpa using this
    obtain ⟨fuel', rfl⟩ : ∃ f, fuel = f + 1 := ⟨fuel - 1, by omega⟩
    have hd : d.isDigit = true := hds d (by simp)
    have hdrop : List.drop (idx + 1 + 1) in_ = ds ++ c :: rest := by
      have h2 : List.drop 1 (List.drop (idx + 1) in_) = ds ++ c :: rest := by
        rw [h]
        rfl
      rwa [List.drop_drop] at h2
    have hrec := ih in_ rest fuel' (idx + 1) (acc ++ [d]) c hdrop
      (fun x hx => hds x (by simp [hx])) hc (by simp at hfuel; omega)
    unfold read_digits get_next_char
    rw [hg]
    simp only [hd, if_true]
    simp only [List.length_cons]
    have e1 : acc ++ d :: ds = (acc ++ [d]) ++ ds := by simp
    rw [e1]
    have e2 : idx + 1 + (ds.length + 1) = idx + 1 + 1 + ds.length := by omega
    rw [e2]
    exact hrec

/-- The saturating bound extraction is nonnegative. -/
theorem readIntVal_nonneg (ds : List Char) : 0 ≤ readIntVal ds := by
  unfold readIntVal
  split
  · exact Int.natCast_nonneg _
  · norm_num

/-- The saturating bound extraction of a digit string with value at
least 1 is at least 1. -/
theorem readIntVal_pos (ds : List Char) (hm : 1 ≤ digitsVal ds) : 1 ≤ readIntVal ds := by
  unfold readIntVal
  split
  · exact_mod_cast hm
  · norm_num

/-- Claim C5 (amended): a quantifier of the form `\x7b,m\x7d` outside a
bracket set, with m a decimal integer of one or more digits whose value
is at least 1, makes the repeat parser succeed with a `REPEAT` token of
lower bound 0 and upper bound `readIntVal m` — the value of m as read
by `stringstream >> int`, i.e. m itself for m ≤ INT_MAX = 2147483647
and the saturated INT_MAX for larger m — consuming through the closing
brace. (For m = 0 the parser instead raises the pointless-quantifier
error, which the claim's list of hard errors omits — see the
counterexample.) -/
theorem C5_comma_m_repeat (in_ : List Char) (idx : Nat) (ds rest : List Char)
    (h : List.drop idx in_ = lbrace :: ',' :: (ds ++ rbrace :: rest))
    (hds : ∀ d ∈ ds, d.isDigit = true) (hne : ds ≠ [])
    (hm : 1 ≤ digitsVal ds) :
    process_repeat in_ idx =
      .ok ({ type := .REPEAT, character := lbrace, repeat_lower := 0, repeat_upper := readIntVal ds }, idx + 2 + ds.length) := by
  have h1 : List.drop (idx + 1) in_ = ',' :: (ds ++ rbrace :: rest) := by
    have h2 : List.drop 1 (List.drop idx in_) = ',' :: (ds ++ rbrace :: rest) := by
      rw [h]
      rfl
    rwa [List.drop_drop] at h2
  have h2 : List.drop (idx + 1 + 1) in_ = ds ++ rbrace :: rest := by
    have h3 : List.drop 1 (List.drop (idx + 1) in_) = ds ++ rbrace :: rest := by
      rw [h1]
      rfl
    rwa [List.drop_drop] at h3
  have hlen : ds.length + 3 ≤ in_.length - idx := by
    have := congrArg List.length h
    simp [List.length_drop] at this
    omega
  have rfirst : read_digits in_ (in_.length + 1) idx [] = .ok ([], ',', idx + 1) := by
    have := read_digits_spec [] in_ (ds ++ rbrace :: rest) (in_.length + 1) idx [] ','
      (by simpa using h1) (by simp) (by decide) (by simp)
    simpa using this
  have rsecond : read_digits in_ (in_.length + 1) (idx + 1) [] =
      .ok (ds, rbrace, idx + 1 + 1 + ds.length) := by
    have := read_digits_spec ds in_ rest (in_.length + 1) (idx + 1) [] rbrace h2 hds
      (by decide) (by omega)
    simpa using this
  have hv1 : (1 : Int) ≤ readIntVal ds := readIntVal_pos ds hm
  have hB : ¬ ((0 : Int) > readIntVal ds) := by omega
  have hC : ¬ (readIntVal ds = 0) := by omega
  have hc1 : ((',' : Char) = rbrace) = False := eq_false (by decide)
  unfold process_repeat
  rw [rfirst]
  simp only [hc1, eq_self_iff_true, if_true, if_false, ite_true, ite_false, if_neg hne]
  rw [rsecond]
  have hD : ¬ (True ∧ readIntVal ds = -1) := by
    intro hx
    omega
  have hE : ¬ (readIntVal ds = -1) := by omega
  simp only [eq_self_iff_true, if_true, ite_true, if_neg hne, ite_false, if_neg hD,
    if_neg hE, if_neg hB, if_neg hC]

/-- Witness for C5's amended theorem: the quantifier text `\x7b,2\x7d`
parses to a `REPEAT` token with bounds 0 and 2. -/
theorem C5_comma_m_witness :
    process_repeat [lbrace, ',', '2', rbrace] 0 =
      .ok ({ type := .REPEAT, character := lbrace, repeat_lower := 0, repeat_upper := 2 }, 3) :=
  C5_comma_m_repeat [lbrace, ',', '2', rbrace] 0 ['2'] [] rfl (by decide) (by decide)
    (by decide)

/-- The leading-zero loop accepts `k` literal zero characters and lands
just past them. -/
theorem hex_zeros_all0 (k : Nat) :
    ∀ (in_ rest : List Char) (nd idx : Nat),
      List.drop (idx + 1) in_ = List.replicate k '0' ++ rest →
      hex_zeros in_ nd k idx = .ok (idx + k) := by
  induction k with
  | zero =>
    intro in_ rest nd idx h
    rfl
  | succ k ih =>
    intro in_ rest nd idx h
    have hg : in_[idx + 1]? = some '0' := by
      have := getElem?_of_drop h 0
      simpa [List.replicate_succ] using this
    have hdrop : List.drop (idx + 1 + 1) in_ = List.replicate k '0' ++ rest := by
      have h2 : List.drop 1 (List.drop (idx + 1) in_) = List.replicate k '0' ++ rest := by
        rw [h, List.replicate_succ]
        rfl
      rwa [List.drop_drop] at h2
    unfold hex_zeros get_next_char
    rw [hg]
    simp only [ne_eq, not_true_eq_false, if_false, ite_false, reduceIte]
    rw [ih in_ rest nd (idx + 1) hdrop]
    congr 1
    omega

/-- The leading-zero loop raises the digit-count-naming error at the
first high digit that is not the literal zero character. -/
theorem hex_zeros_bad (zs : List Char) :
    ∀ (in_ rest : List Char) (nd k idx : Nat) (d : Char),
      List.drop (idx + 1) in_ = zs ++ d :: rest →
      (∀ z ∈ zs, z = '0') → zs.length < k → d ≠ '0' →
      hex_zeros in_ nd k idx =
        .error ("ERROR: Unsupported " ++ toString nd ++ "-digit hex number") := by
  induction zs with
  | nil =>
    intro in_ rest nd k idx d h hz hk hd
    obtain ⟨k', rfl⟩ : ∃ j, k = j + 1 := ⟨k - 1, by omega⟩
    have hg : in_[idx + 1]? = some d := by
      have := getElem?_of_drop h 0
      simpa using this
    unfold hex_zeros get_next_char
    rw [hg]
    simp [hd]
  | cons z zs ih =>
    intro in_ rest nd k idx d h hz hk hd
    obtain ⟨k', rfl⟩ : ∃ j, k = j + 1 := ⟨k - 1, by omega⟩
    have hz0 : z = '0' := hz z (by simp)
    subst hz0
    have hg : in_[idx + 1]? = some '0' := by
      have := getElem?_of_drop h 0
      simpa using this
    have hdrop : List.drop (idx + 1 + 1) in_ = zs ++ d :: rest := by
      have h2 : List.drop 1 (List.drop (idx + 1) in_) = zs ++ d :: rest := by
        rw [h]
        rfl
      rwa [List.drop_drop] at h2
    unfold hex_zeros get_next_char
    rw [hg]
    simp only [ne_eq, not_true_eq_false, if_false, ite_false, reduceIte]
    exact ih in_ rest nd k' (idx + 1) d hdrop (fun x hx => hz x (by simp [hx]))
      (by simp at hk; omega) hd


/-- Core behavior of the hex decoder once the high digits are all `0`
and the last two characters are valid hex digits: the combined value is
range-checked against printable ASCII. -/
theorem process_hex_core (in_ rest : List Char) (idx nd : Nat) (d1 d2 : Char) (v1 v2 : Nat)
    (h : List.drop (idx + 1) in_ = List.replicate (nd - 2) '0' ++ d1 :: d2 :: rest)
    (hv1 : hex_digit_value d1 = .ok v1) (hv2 : hex_digit_value d2 = .ok v2) :
    process_hex in_ idx nd =
      if v1 * 16 + v2 < 32 ∨ v1 * 16 + v2 > 126 then
        .error ("ERROR: contains unsupported hex value " ++ toString (v1 * 16 + v2))
      else
        .ok ({ type := .CHARACTER, character := Char.ofNat (v1 * 16 + v2) },
          idx + (nd - 2) + 1 + 1) := by
  have hz := hex_zeros_all0 (nd - 2) in_ (d1 :: d2 :: rest) nd idx h
  have hg1 : in_[idx + (nd - 2) + 1]? = some d1 := by
    have h5 := getElem?_of_drop h (nd - 2)
    rw [List.getElem?_append_right (by simp)] at h5
    simp only [List.length_replicate, Nat.sub_self] at h5
    rw [show idx + (nd - 2) + 1 = idx + 1 + (nd - 2) by omega]
    simpa using h5
  have hg2 : in_[idx + (nd - 2) + 1 + 1]? = some d2 := by
    have h5 := getElem?_of_drop h (nd - 2 + 1)
    rw [List.getElem?_append_right (by simp)] at h5
    have e : nd - 2 + 1 - (List.replicate (nd - 2) '0').length = 1 := by
      simp [List.length_replicate]
    rw [e] at h5
    rw [show idx + (nd - 2) + 1 + 1 = idx + 1 + (nd - 2 + 1) by omega]
    simpa using h5
  unfold process_hex
  rw [hz]
  simp only []
  unfold get_next_char
  rw [hg1]
  simp only []
  rw [hg2]
  simp only []
  rw [hv1]
  simp only []
  rw [hv2]


/-- Claim C7: the hex escape decoder, parameterized by the required
digit count, errors with the count-naming message at the first
non-`0` digit beyond the rightmost two; when the high digits are all
`0` and the final two characters are case-insensitive hex digits, the
combined byte value must lie in [32,126] — inside the range a literal
`CHARACTER` of that value is emitted, outside it the decimal
value-naming error is raised; concretely, `\x41` yields Character `A`
and `\x1F` raises the out-of-range error naming 31. -/
theorem C7_hex_escape_decoder :
    (∀ (in_ rest : List Char) (idx nd : Nat) (zs : List Char) (d : Char),
      List.drop (idx + 1) in_ = zs ++ d :: rest → (∀ z ∈ zs, z = '0') →
      zs.length < nd - 2 → d ≠ '0' →
      process_hex in_ idx nd =
        .error ("ERROR: Unsupported " ++ toString nd ++ "-digit hex number")) ∧
    (∀ (in_ rest : List Char) (idx nd : Nat) (d1 d2 : Char) (v1 v2 : Nat),
      List.drop (idx + 1) in_ = List.replicate (nd - 2) '0' ++ d1 :: d2 :: rest →
      hex_digit_value d1 = .ok v1 → hex_digit_value d2 = .ok v2 →
      32 ≤ v1 * 16 + v2 → v1 * 16 + v2 ≤ 126 →
      process_hex in_ idx nd =
        .ok ({ type := .CHARACTER, character := Char.ofNat (v1 * 16 + v2) },
          idx + (nd - 2) + 1 + 1)) ∧
    (∀ (in_ rest : List Char) (idx nd : Nat) (d1 d2 : Char) (v1 v2 : Nat),
      List.drop (idx + 1) in_ = List.replicate (nd - 2) '0' ++ d1 :: d2 :: rest →
      hex_digit_value d1 = .ok v1 → hex_digit_value d2 = .ok v2 →
      v1 * 16 + v2 < 32 ∨ v1 * 16 + v2 > 126 →
      process_hex in_ idx nd =
        .error ("ERROR: contains unsupported hex value " ++ toString (v1 * 16 + v2))) ∧
    init ['\\', 'x', '4', '1'] = .ok ([{ type := .CHARACTER, character := 'A' }], []) ∧
    init ['\\', 'x', '1', 'F'] = .error "ERROR: contains unsupported hex value 31" := by
  refine ⟨?_, ?_, ?_, rfl, rfl⟩
  · intro in_ rest idx nd zs d h hz hk hd
    unfold process_hex
    rw [hex_zeros_bad zs in_ rest nd (nd - 2) idx d h hz hk hd]
  · intro in_ rest idx nd d1 d2 v1 v2 h hv1 hv2 h32 h126
    rw [process_hex_core in_ rest idx nd d1 d2 v1 v2 h hv1 hv2]
    rw [if_neg (by omega)]
  · intro in_ rest idx nd d1 d2 v1 v2 h hv1 hv2 hr
    rw [process_hex_core in_ rest idx nd d1 d2 v1 v2 h hv1 hv2]
    rw [if_pos hr]

/-- Witness for C7: the success part applied to the 8-digit escape
`\U00000041`, which decodes to Character `A`. -/
theorem C7_hex_escape_witness :
    process_hex ['U', '0', '0', '0', '0', '0', '0', '4', '1'] 0 8 =
      .ok ({ type := .CHARACTER, character := 'A' }, 8) :=
  C7_hex_escape_decoder.2.1 ['U', '0', '0', '0', '0', '0', '0', '4', '1'] [] 0 8 '4' '1' 4 1
    (by decide) rfl rfl (by decide) (by decide)

/-- The dispatch step, outside a bracket set, turns any character other
than the twelve listed special characters into a literal `CHARACTER`
token consuming exactly that character (the characters `]`, `-` and
`\x7d` are not special outside a set). -/
theorem scan_step_lit (in_ : List Char) (idx : Nat) (tokens : List Token) (c : Char)
    (hS : c ∉ ['\\', '[', lbrace, '(', ')', '|', '*', '+', '?', '.', '^', '$']) :
    scan_step in_ idx false tokens c =
      .ok ({ type := .CHARACTER, character := c }, idx, false, []) := by
  simp only [List.mem_cons, List.not_mem_nil, or_false, not_or] at hS
  obtain ⟨h1, h2, h3, h4, h5, h6, h7, h8, h9, h10, h11, h12⟩ := hS
  unfold scan_step
  rw [if_neg h1, if_neg h2]
  by_cases hrb : c = ']'
  · subst hrb
    simp
  · rw [if_neg hrb]
    by_cases hhy : c = '-'
    · subst hhy
      simp
    · rw [if_neg hhy, if_neg h6, if_neg h7, if_neg h8, if_neg h9, if_neg h4, if_neg h5,
        if_neg h10, if_neg h3, if_neg h11, if_neg h12]

/-- The driver loop over a remaining text free of the twelve special
characters appends one literal token per character and succeeds. -/
theorem scan_loop_literal (l : List Char) :
    ∀ (in_ : List Char) (fuel idx : Nat) (tokens : List Token) (warnings : List String),
      List.drop idx in_ = l → l.length ≤ fuel →
      (∀ c ∈ l, c ∉ ['\\', '[', lbrace, '(', ')', '|', '*', '+', '?', '.', '^', '$']) →
      scan_loop in_ fuel idx false tokens warnings =
        .ok (tokens ++ l.map (fun c => { type := .CHARACTER, character := c }), warnings) := by
  induction l with
  | nil =>
    intro in_ fuel idx tokens warnings h hf hS
    have hg : in_[idx]? = none := by
      have := getElem?_of_drop h 0
      simpa using this
    unfold scan_loop
    rw [hg]
    simp
  | cons c l ih =>
    intro in_ fuel idx tokens warnings h hf hS
    have hg : in_[idx]? = some c := by
      have := getElem?_of_drop h 0
      simpa using this
    obtain ⟨fuel', rfl⟩ : ∃ f, fuel = f + 1 := ⟨fuel - 1, by simp at hf; omega⟩
    have hstep := scan_step_lit in_ idx tokens c (hS c (by simp))
    have hdrop : List.drop (idx + 1) in_ = l := by
      have h2 : List.drop 1 (List.drop idx in_) = l := by
        rw [h]
        rfl
      rwa [List.drop_drop] at h2
    unfold scan_loop
    rw [hg]
    simp only []
    rw [hstep]
    simp only []
    have hrec := ih in_ fuel' (idx + 1)
      (tokens ++ [{ type := .CHARACTER, character := c }]) (warnings ++ []) hdrop
      (by simp at hf; omega) (fun x hx => hS x (by simp [hx]))
    rw [hrec]
    simp

/-- Claim C6 (amended): for every pattern containing no backslash, no
`[`, no `\x7b`, no parenthesis *and none of the operator characters*
`| * + ? . ^ $` (which the claim's exclusion list misses — see the
counterexample), scanning succeeds with no warnings and every character
maps to exactly one literal `CHARACTER` token carrying that
character. -/
theorem C6_literal_only_scan (p : List Char)
    (hS : ∀ c ∈ p, c ∉ ['\\', '[', lbrace, '(', ')', '|', '*', '+', '?', '.', '^', '$']) :
    init p = .ok (p.map (fun c => { type := .CHARACTER, character := c }), []) := by
  unfold init
  have := scan_loop_literal p p (p.length + 1) 0 [] [] rfl (by omega) hS
  simpa using this

/-- Witness for C6's amended theorem at the pattern `ab`. -/
theorem C6_literal_witness :
    init ['a', 'b'] =
      .ok ([{ type := .CHARACTER, character := 'a' }, { type := .CHARACTER, character := 'b' }], []) :=
  C6_literal_only_scan ['a', 'b'] (by decide)

/-- Every successful octal decode returns a literal `CHARACTER`
token. -/
theorem process_octal_char (in_ : List Char) (idx : Nat) (fd : Char) (t : Token) (j : Nat)
    (h : process_octal in_ idx fd = .ok (t, j)) : t.type = .CHARACTER := by
  unfold process_octal octal_one_digit_error octal_finish at h
  repeat' split at h
  all_goals simp_all
  all_goals (obtain ⟨h1, h2⟩ := h; subst h1; rfl)

/-- Every successful hex decode returns a literal `CHARACTER`
token. -/
theorem process_hex_char (in_ : List Char) (idx nd : Nat) (t : Token) (j : Nat)
    (h : process_hex in_ idx nd = .ok (t, j)) : t.type = .CHARACTER := by
  unfold process_hex at h
  try simp only [] at h
  repeat' split at h
  all_goals simp_all
  all_goals (obtain ⟨h1, h2⟩ := h; subst h1; rfl)

/-- The extension processor never returns a `REPEAT` token. -/
theorem process_extension_not_repeat (in_ : List Char) (idx : Nat) (t : Token) (j : Nat)
    (ws : List String) (h : process_extension in_ idx = .ok (t, j, ws)) :
    t.type ≠ .REPEAT := by
  unfold process_extension at h
  repeat' split at h
  all_goals simp_all
  all_goals (obtain ⟨h1, h2⟩ := h; subst h1; simp)

set_option maxHeartbeats 1600000 in
/-- Every token the repeat parser returns satisfies the repeat-bound
invariant: rollback tokens are `CHARACTER` tokens (vacuous), and
`REPEAT` tokens carry a nonnegative lower bound and an upper bound that
is nonnegative or the `-1` sentinel. -/
theorem process_repeat_bounds (in_ : List Char) (idx : Nat) (t : Token) (j : Nat)
    (h : process_repeat in_ idx = .ok (t, j)) : repeatBoundsOk t := by
  unfold repeatBoundsOk
  unfold process_repeat at h
  try simp only [] at h
  repeat' split at h
  all_goals simp_all [readIntVal_nonneg]
  all_goals (obtain ⟨h1, h2⟩ := h; subst h1)
  all_goals intro htype
  all_goals simp_all [readIntVal_nonneg]

set_option maxHeartbeats 1600000 in
/-- Every token the per-character dispatch emits satisfies the
repeat-bound invariant. -/
theorem scan_step_bounds (in_ : List Char) (idx : Nat) (s : Bool) (tokens : List Token)
    (ch : Char) (t : Token) (j : Nat) (s' : Bool) (ws : List String)
    (h : scan_step in_ idx s tokens ch = .ok (t, j, s', ws)) : repeatBoundsOk t := by
  unfold scan_step at h
  by_cases hc1 : ch = '\\'
  · rw [if_pos hc1] at h
    split at h
    · simp at h
    · rename_i gc gidx heq
      by_cases hd1 : gc = 'd' ∨ gc = 'D' ∨ gc = 'w' ∨ gc = 'W' ∨ gc = 's' ∨ gc = 'S'
      · rw [if_pos hd1] at h
        repeat' split at h
        all_goals
          (first
            | (simp at h; done)
            | (simp only [Except.ok.injEq, Prod.mk.injEq] at h
               obtain ⟨e1, e2, e3, e4⟩ := h
               subst e1
               first
               | (simp [repeatBoundsOk]; done)
               | exact process_repeat_bounds _ _ _ _ (by assumption)
               | (intro htype
                  first
                  | exact absurd htype (by simp [process_octal_char _ _ _ _ _ (by assumption)])
                  | exact absurd htype (by simp [process_hex_char _ _ _ _ _ (by assumption)])
                  | exact absurd htype (process_extension_not_repeat _ _ _ _ _ (by assumption)))))
      · rw [if_neg hd1] at h
        by_cases hd2 : gc = 'A'
        · rw [if_pos hd2] at h
          repeat' split at h
          all_goals
            (first
              | (simp at h; done)
              | (simp only [Except.ok.injEq, Prod.mk.injEq] at h
                 obtain ⟨e1, e2, e3, e4⟩ := h
                 subst e1
                 first
                 | (simp [repeatBoundsOk]; done)
                 | exact process_repeat_bounds _ _ _ _ (by assumption)
                 | (intro htype
                    first
                    | exact absurd htype (by simp [process_octal_char _ _ _ _ _ (by assumption)])
                    | exact absurd htype (by simp [process_hex_char _ _ _ _ _ (by assumption)])
                    | exact absurd htype (process_extension_not_repeat _ _ _ _ _ (by assumption)))))
        · rw [if_neg hd2] at h
          by_cases hd3 : gc = 'Z'
          · rw [if_pos hd3] at h
            repeat' split at h
            all_goals
              (first
                | (simp at h; done)
                | (simp only [Except.ok.injEq, Prod.mk.injEq] at h
                   obtain ⟨e1, e2, e3, e4⟩ := h
                   subst e1
                   first
                   | (simp [repeatBoundsOk]; done)
                   | exact process_repeat_bounds _ _ _ _ (by assumption)
                   | (intro htype
                      first
                      | exact absurd htype (by simp [process_octal_char _ _ _ _ _ (by assumption)])
                      | exact absurd htype (by simp [process_hex_char _ _ _ _ _ (by assumption)])
                      | exact absurd htype (process_extension_not_repeat _ _ _ _ _ (by assumption)))))
          · rw [if_neg hd3] at h
            by_cases hd4 : gc = 'b'
            · rw [if_pos hd4] at h
              repeat' split at h
              all_goals
                (first
                  | (simp at h; done)
                  | (simp only [Except.ok.injEq, Prod.mk.injEq] at h
                     obtain ⟨e1, e2, e3, e4⟩ := h
                     subst e1
                     first
                     | (simp [repeatBoundsOk]; done)
                     | exact process_repeat_bounds _ _ _ _ (by assumption)
                     | (intro htype
                        first
                        | exact absurd htype (by simp [process_octal_char _ _ _ _ _ (by assumption)])
                        | exact absurd htype (by simp [process_hex_char _ _ _ _ _ (by assumption)])
                        | exact absurd htype (process_extension_not_repeat _ _ _ _ _ (by assumption)))))
            · rw [if_neg hd4] at h
              by_cases hd5 : gc = 'B'
              · rw [if_pos hd5] at h
                repeat' split at h
                all_goals
                  (first
                    | (simp at h; done)
                    | (simp only [Except.ok.injEq, Prod.mk.injEq] at h
                       obtain ⟨e1, e2, e3, e4⟩ := h
                       subst e1
                       first
                       | (simp [repeatBoundsOk]; done)
                       | exact process_repeat_bounds _ _ _ _ (by assumption)
                       | (intro htype
                          first
                          | exact absurd htype (by simp [process_octal_char _ _ _ _ _ (by assumption)])
                          | exact absurd htype (by simp [process_hex_char _ _ _ _ _ (by assumption)])
                          | exact absurd htype (process_extension_not_repeat _ _ _ _ _ (by assumption)))))
              · rw [if_neg hd5] at h
                by_cases hd6 : gc = 'a' ∨ gc = 'f' ∨ gc = 'n' ∨ gc = 'r' ∨ gc = 't' ∨ gc = 'v' ∨ gc = 'p'
                · rw [if_pos hd6] at h
                  repeat' split at h
                  all_goals
                    (first
                      | (simp at h; done)
                      | (simp only [Except.ok.injEq, Prod.mk.injEq] at h
                         obtain ⟨e1, e2, e3, e4⟩ := h
                         subst e1
                         first
                         | (simp [repeatBoundsOk]; done)
                         | exact process_repeat_bounds _ _ _ _ (by assumption)
                         | (intro htype
                            first
                            | exact absurd htype (by simp [process_octal_char _ _ _ _ _ (by assumption)])
                            | exact absurd htype (by simp [process_hex_char _ _ _ _ _ (by assumption)])
                            | exact absurd htype (process_extension_not_repeat _ _ _ _ _ (by assumption)))))
                · rw [if_neg hd6] at h
                  by_cases hd7 : gc = '\\'
                  · rw [if_pos hd7] at h
                    repeat' split at h
                    all_goals
                      (first
                        | (simp at h; done)
                        | (simp only [Except.ok.injEq, Prod.mk.injEq] at h
                           obtain ⟨e1, e2, e3, e4⟩ := h
                           subst e1
                           first
                           | (simp [repeatBoundsOk]; done)
                           | exact process_repeat_bounds _ _ _ _ (by assumption)
                           | (intro htype
                              first
                              | exact absurd htype (by simp [process_octal_char _ _ _ _ _ (by assumption)])
                              | exact absurd htype (by simp [process_hex_char _ _ _ _ _ (by assumption)])
                              | exact absurd htype (process_extension_not_repeat _ _ _ _ _ (by assumption)))))
                  · rw [if_neg hd7] at h
                    by_cases hd8 : gc = squote
                    · rw [if_pos hd8] at h
                      repeat' split at h
                      all_goals
                        (first
                          | (simp at h; done)
                          | (simp only [Except.ok.injEq, Prod.mk.injEq] at h
                             obtain ⟨e1, e2, e3, e4⟩ := h
                             subst e1
                             first
                             | (simp [repeatBoundsOk]; done)
                             | exact process_repeat_bounds _ _ _ _ (by assumption)
                             | (intro htype
                                first
                                | exact absurd htype (by simp [process_octal_char _ _ _ _ _ (by assumption)])
                                | exact absurd htype (by simp [process_hex_char _ _ _ _ _ (by assumption)])
                                | exact absurd htype (process_extension_not_repeat _ _ _ _ _ (by assumption)))))
                    · rw [if_neg hd8] at h
                      by_cases hd9 : gc = dquote
                      · rw [if_pos hd9] at h
                        repeat' split at h
                        all_goals
                          (first
                            | (simp at h; done)
                            | (simp only [Except.ok.injEq, Prod.mk.injEq] at h
                               obtain ⟨e1, e2, e3, e4⟩ := h
                               subst e1
                               first
                               | (simp [repeatBoundsOk]; done)
                               | exact process_repeat_bounds _ _ _ _ (by assumption)
                               | (intro htype
                                  first
                                  | exact absurd htype (by simp [process_octal_char _ _ _ _ _ (by assumption)])
                                  | exact absurd htype (by simp [process_hex_char _ _ _ _ _ (by assumption)])
                                  | exact absurd htype (process_extension_not_repeat _ _ _ _ _ (by assumption)))))
                      · rw [if_neg hd9] at h
                        by_cases hd10 : gc.isDigit = true
                        · rw [if_pos hd10] at h
                          repeat' split at h
                          all_goals
                            (first
                              | (simp at h; done)
                              | (simp only [Except.ok.injEq, Prod.mk.injEq] at h
                                 obtain ⟨e1, e2, e3, e4⟩ := h
                                 subst e1
                                 first
                                 | (simp [repeatBoundsOk]; done)
                                 | exact process_repeat_bounds _ _ _ _ (by assumption)
                                 | (intro htype
                                    first
                                    | exact absurd htype (by simp [process_octal_char _ _ _ _ _ (by assumption)])
                                    | exact absurd htype (by simp [process_hex_char _ _ _ _ _ (by assumption)])
                                    | exact absurd htype (process_extension_not_repeat _ _ _ _ _ (by assumption)))))
                        · rw [if_neg hd10] at h
                          by_cases hd11 : gc = 'x'
                          · rw [if_pos hd11] at h
                            repeat' split at h
                            all_goals
                              (first
                                | (simp at h; done)
                                | (simp only [Except.ok.injEq, Prod.mk.injEq] at h
                                   obtain ⟨e1, e2, e3, e4⟩ := h
                                   subst e1
                                   first
                                   | (simp [repeatBoundsOk]; done)
                                   | exact process_repeat_bounds _ _ _ _ (by assumption)
                                   | (intro htype
                                      first
                                      | exact absurd htype (by simp [process_octal_char _ _ _ _ _ (by assumption)])
                                      | exact absurd htype (by simp [process_hex_char _ _ _ _ _ (by assumption)])
                                      | exact absurd htype (process_extension_not_repeat _ _ _ _ _ (by assumption)))))
                          · rw [if_neg hd11] at h
                            by_cases hd12 : gc = 'u'
                            · rw [if_pos hd12] at h
                              repeat' split at h
                              all_goals
                                (first
                                  | (simp at h; done)
                                  | (simp only [Except.ok.injEq, Prod.mk.injEq] at h
                                     obtain ⟨e1, e2, e3, e4⟩ := h
                                     subst e1
                                     first
                                     | (simp [repeatBoundsOk]; done)
                                     | exact process_repeat_bounds _ _ _ _ (by assumption)
                                     | (intro htype
                                        first
                                        | exact absurd htype (by simp [process_octal_char _ _ _ _ _ (by assumption)])
                                        | exact absurd htype (by simp [process_hex_char _ _ _ _ _ (by assumption)])
                                        | exact absurd htype (process_extension_not_repeat _ _ _ _ _ (by assumption)))))
                            · rw [if_neg hd12] at h
                              by_cases hd13 : gc = 'U'
                              · rw [if_pos hd13] at h
                                repeat' split at h
                                all_goals
                                  (first
                                    | (simp at h; done)
                                    | (simp only [Except.ok.injEq, Prod.mk.injEq] at h
                                       obtain ⟨e1, e2, e3, e4⟩ := h
                                       subst e1
                                       first
                                       | (simp [repeatBoundsOk]; done)
                                       | exact process_repeat_bounds _ _ _ _ (by assumption)
                                       | (intro htype
                                          first
                                          | exact absurd htype (by simp [process_octal_char _ _ _ _ _ (by assumption)])
                                          | exact absurd htype (by simp [process_hex_char _ _ _ _ _ (by assumption)])
                                          | exact absurd htype (process_extension_not_repeat _ _ _ _ _ (by assumption)))))
                              · rw [if_neg hd13] at h
                                repeat' split at h
                                all_goals
                                  (first
                                    | (simp at h; done)
                                    | (simp only [Except.ok.injEq, Prod.mk.injEq] at h
                                       obtain ⟨e1, e2, e3, e4⟩ := h
                                       subst e1
                                       first
                                       | (simp [repeatBoundsOk]; done)
                                       | exact process_repeat_bounds _ _ _ _ (by assumption)
                                       | (intro htype
                                          first
                                          | exact absurd htype (by simp [process_octal_char _ _ _ _ _ (by assumption)])
                                          | exact absurd htype (by simp [process_hex_char _ _ _ _ _ (by assumption)])
                                          | exact absurd htype (process_extension_not_repeat _ _ _ _ _ (by assumption)))))
  · rw [if_neg hc1] at h
    by_cases hc2 : ch = '['
    · rw [if_pos hc2] at h
      repeat' split at h
      all_goals
        (first
          | (simp at h; done)
          | (simp only [Except.ok.injEq, Prod.mk.injEq] at h
             obtain ⟨e1, e2, e3, e4⟩ := h
             subst e1
             first
             | (simp [repeatBoundsOk]; done)
             | exact process_repeat_bounds _ _ _ _ (by assumption)
             | (intro htype
                first
                | exact absurd htype (by simp [process_octal_char _ _ _ _ _ (by assumption)])
                | exact absurd htype (by simp [process_hex_char _ _ _ _ _ (by assumption)])
                | exact absurd htype (process_extension_not_repeat _ _ _ _ _ (by assumption)))))
    · rw [if_neg hc2] at h
      by_cases hc3 : ch = ']'
      · rw [if_pos hc3] at h
        repeat' split at h
        all_goals
          (first
            | (simp at h; done)
            | (simp only [Except.ok.injEq, Prod.mk.injEq] at h
               obtain ⟨e1, e2, e3, e4⟩ := h
               subst e1
               first
               | (simp [repeatBoundsOk]; done)
               | exact process_repeat_bounds _ _ _ _ (by assumption)
               | (intro htype
                  first
                  | exact absurd htype (by simp [process_octal_char _ _ _ _ _ (by assumption)])
                  | exact absurd htype (by simp [process_hex_char _ _ _ _ _ (by assumption)])
                  | exact absurd htype (process_extension_not_repeat _ _ _ _ _ (by assumption)))))
      · rw [if_neg hc3] at h
        by_cases hc4 : ch = '-'
        · rw [if_pos hc4] at h
          repeat' split at h
          all_goals
            (first
              | (simp at h; done)
              | (simp only [Except.ok.injEq, Prod.mk.injEq] at h
                 obtain ⟨e1, e2, e3, e4⟩ := h
                 subst e1
                 first
                 | (simp [repeatBoundsOk]; done)
                 | exact process_repeat_bounds _ _ _ _ (by assumption)
                 | (intro htype
                    first
                    | exact absurd htype (by simp [process_octal_char _ _ _ _ _ (by assumption)])
                    | exact absurd htype (by simp [process_hex_char _ _ _ _ _ (by assumption)])
                    | exact absurd htype (process_extension_not_repeat _ _ _ _ _ (by assumption)))))
        · rw [if_neg hc4] at h
          by_cases hc5 : ch = '|'
          · rw [if_pos hc5] at h
            repeat' split at h
            all_goals
              (first
                | (simp at h; done)
                | (simp only [Except.ok.injEq, Prod.mk.injEq] at h
                   obtain ⟨e1, e2, e3, e4⟩ := h
                   subst e1
                   first
                   | (simp [repeatBoundsOk]; done)
                   | exact process_repeat_bounds _ _ _ _ (by assumption)
                   | (intro htype
                      first
                      | exact absurd htype (by simp [process_octal_char _ _ _ _ _ (by assumption)])
                      | exact absurd htype (by simp [process_hex_char _ _ _ _ _ (by assumption)])
                      | exact absurd htype (process_extension_not_repeat _ _ _ _ _ (by assumption)))))
          · rw [if_neg hc5] at h
            by_cases hc6 : ch = '*'
            · rw [if_pos hc6] at h
              repeat' split at h
              all_goals
                (first
                  | (simp at h; done)
                  | (simp only [Except.ok.injEq, Prod.mk.injEq] at h
                     obtain ⟨e1, e2, e3, e4⟩ := h
                     subst e1
                     first
                     | (simp [repeatBoundsOk]; done)
                     | exact process_repeat_bounds _ _ _ _ (by assumption)
                     | (intro htype
                        first
                        | exact absurd htype (by simp [process_octal_char _ _ _ _ _ (by assumption)])
                        | exact absurd htype (by simp [process_hex_char _ _ _ _ _ (by assumption)])
                        | exact absurd htype (process_extension_not_repeat _ _ _ _ _ (by assumption)))))
            · rw [if_neg hc6] at h
              by_cases hc7 : ch = '+'
              · rw [if_pos hc7] at h
                repeat' split at h
                all_goals
                  (first
                    | (simp at h; done)
                    | (simp only [Except.ok.injEq, Prod.mk.injEq] at h
                       obtain ⟨e1, e2, e3, e4⟩ := h
                       subst e1
                       first
                       | (simp [repeatBoundsOk]; done)
                       | exact process_repeat_bounds _ _ _ _ (by assumption)
                       | (intro htype
                          first
                          | exact absurd htype (by simp [process_octal_char _ _ _ _ _ (by assumption)])
                          | exact absurd htype (by simp [process_hex_char _ _ _ _ _ (by assumption)])
                          | exact absurd htype (process_extension_not_repeat _ _ _ _ _ (by assumption)))))
              · rw [if_neg hc7] at h
                by_cases hc8 : ch = '?'
                · rw [if_pos hc8] at h
                  repeat' split at h
                  all_goals
                    (first
                      | (simp at h; done)
                      | (simp only [Except.ok.injEq, Prod.mk.injEq] at h
                         obtain ⟨e1, e2, e3, e4⟩ := h
                         subst e1
                         first
                         | (simp [repeatBoundsOk]; done)
                         | exact process_repeat_bounds _ _ _ _ (by assumption)
                         | (intro htype
                            first
                            | exact absurd htype (by simp [process_octal_char _ _ _ _ _ (by assumption)])
                            | exact absurd htype (by simp [process_hex_char _ _ _ _ _ (by assumption)])
                            | exact absurd htype (process_extension_not_repeat _ _ _ _ _ (by assumption)))))
                · rw [if_neg hc8] at h
                  by_cases hc9 : ch = '('
                  · rw [if_pos hc9] at h
                    repeat' split at h
                    all_goals
                      (first
                        | (simp at h; done)
                        | (simp only [Except.ok.injEq, Prod.mk.injEq] at h
                           obtain ⟨e1, e2, e3, e4⟩ := h
                           subst e1
                           first
                           | (simp [repeatBoundsOk]; done)
                           | exact process_repeat_bounds _ _ _ _ (by assumption)
                           | (intro htype
                              first
                              | exact absurd htype (by simp [process_octal_char _ _ _ _ _ (by assumption)])
                              | exact absurd htype (by simp [process_hex_char _ _ _ _ _ (by assumption)])
                              | exact absurd htype (process_extension_not_repeat _ _ _ _ _ (by assumption)))))
                  · rw [if_neg hc9] at h
                    by_cases hc10 : ch = ')'
                    · rw [if_pos hc10] at h
                      repeat' split at h
                      all_goals
                        (first
                          | (simp at h; done)
                          | (simp only [Except.ok.injEq, Prod.mk.injEq] at h
                             obtain ⟨e1, e2, e3, e4⟩ := h
                             subst e1
                             first
                             | (simp [repeatBoundsOk]; done)
                             | exact process_repeat_bounds _ _ _ _ (by assumption)
                             | (intro htype
                                first
                                | exact absurd htype (by simp [process_octal_char _ _ _ _ _ (by assumption)])
                                | exact absurd htype (by simp [process_hex_char _ _ _ _ _ (by assumption)])
                                | exact absurd htype (process_extension_not_repeat _ _ _ _ _ (by assumption)))))
                    · rw [if_neg hc10] at h
                      by_cases hc11 : ch = '.'
                      · rw [if_pos hc11] at h
                        repeat' split at h
                        all_goals
                          (first
                            | (simp at h; done)
                            | (simp only [Except.ok.injEq, Prod.mk.injEq] at h
                               obtain ⟨e1, e2, e3, e4⟩ := h
                               subst e1
                               first
                               | (simp [repeatBoundsOk]; done)
                               | exact process_repeat_bounds _ _ _ _ (by assumption)
                               | (intro htype
                                  first
                                  | exact absurd htype (by simp [process_octal_char _ _ _ _ _ (by assumption)])
                                  | exact absurd htype (by simp [process_hex_char _ _ _ _ _ (by assumption)])
                                  | exact absurd htype (process_extension_not_repeat _ _ _ _ _ (by assumption)))))
                      · rw [if_neg hc11] at h
                        by_cases hc12 : ch = lbrace
                        · rw [if_pos hc12] at h
                          repeat' split at h
                          all_goals
                            (first
                              | (simp at h; done)
                              | (simp only [Except.ok.injEq, Prod.mk.injEq] at h
                                 obtain ⟨e1, e2, e3, e4⟩ := h
                                 subst e1
                                 first
                                 | (simp [repeatBoundsOk]; done)
                                 | exact process_repeat_bounds _ _ _ _ (by assumption)
                                 | (intro htype
                                    first
                                    | exact absurd htype (by simp [process_octal_char _ _ _ _ _ (by assumption)])
                                    | exact absurd htype (by simp [process_hex_char _ _ _ _ _ (by assumption)])
                                    | exact absurd htype (process_extension_not_repeat _ _ _ _ _ (by assumption)))))
                        · rw [if_neg hc12] at h
                          by_cases hc13 : ch = '^'
                          · rw [if_pos hc13] at h
                            repeat' split at h
                            all_goals
                              (first
                                | (simp at h; done)
                                | (simp only [Except.ok.injEq, Prod.mk.injEq] at h
                                   obtain ⟨e1, e2, e3, e4⟩ := h
                                   subst e1
                                   first
                                   | (simp [repeatBoundsOk]; done)
                                   | exact process_repeat_bounds _ _ _ _ (by assumption)
                                   | (intro htype
                                      first
                                      | exact absurd htype (by simp [process_octal_char _ _ _ _ _ (by assumption)])
                                      | exact absurd htype (by simp [process_hex_char _ _ _ _ _ (by assumption)])
                                      | exact absurd htype (process_extension_not_repeat _ _ _ _ _ (by assumption)))))
                          · rw [if_neg hc13] at h
                            by_cases hc14 : ch = '$'
                            · rw [if_pos hc14] at h
                              repeat' split at h
                              all_goals
                                (first
                                  | (simp at h; done)
                                  | (simp only [Except.ok.injEq, Prod.mk.injEq] at h
                                     obtain ⟨e1, e2, e3, e4⟩ := h
                                     subst e1
                                     first
                                     | (simp [repeatBoundsOk]; done)
                                     | exact process_repeat_bounds _ _ _ _ (by assumption)
                                     | (intro htype
                                        first
                                        | exact absurd htype (by simp [process_octal_char _ _ _ _ _ (by assumption)])
                                        | exact absurd htype (by simp [process_hex_char _ _ _ _ _ (by assumption)])
                                        | exact absurd htype (process_extension_not_repeat _ _ _ _ _ (by assumption)))))
                            · rw [if_neg hc14] at h
                              repeat' split at h
                              all_goals
                                (first
                                  | (simp at h; done)
                                  | (simp only [Except.ok.injEq, Prod.mk.injEq] at h
                                     obtain ⟨e1, e2, e3, e4⟩ := h
                                     subst e1
                                     first
                                     | (simp [repeatBoundsOk]; done)
                                     | exact process_repeat_bounds _ _ _ _ (by assumption)
                                     | (intro htype
                                        first
                                        | exact absurd htype (by simp [process_octal_char _ _ _ _ _ (by assumption)])
                                        | exact absurd htype (by simp [process_hex_char _ _ _ _ _ (by assumption)])
                                        | exact absurd htype (process_extension_not_repeat _ _ _ _ _ (by assumption)))))


/-- The driver loop preserves the repeat-bound invariant over the
accumulated token list. -/
theorem scan_loop_bounds (fuel : Nat) :
    ∀ (in_ : List Char) (idx : Nat) (s : Bool) (tokens : List Token)
      (warnings : List String) (ts : List Token) (ws : List String),
      (∀ t ∈ tokens, repeatBoundsOk t) →
      scan_loop in_ fuel idx s tokens warnings = .ok (ts, ws) →
      ∀ t ∈ ts, repeatBoundsOk t := by
  induction fuel with
  | zero =>
    intro in_ idx s tokens warnings ts ws hinv h t ht
    unfold scan_loop at h
    split at h
    · simp only [Except.ok.injEq, Prod.mk.injEq] at h
      obtain ⟨h1, h2⟩ := h
      subst h1
      exact hinv t ht
    · simp at h
  | succ fuel ih =>
    intro in_ idx s tokens warnings ts ws hinv h t ht
    unfold scan_loop at h
    split at h
    · simp only [Except.ok.injEq, Prod.mk.injEq] at h
      obtain ⟨h1, h2⟩ := h
      subst h1
      exact hinv t ht
    · split at h
      · simp at h
      · rename_i a fuel2 heqf
        split at h
        · simp at h
        · rename_i x tok idx2 s2 ws2 heq
          obtain rfl : fuel2 = fuel := by omega
          refine ih in_ (idx2 + 1) s2 (tokens ++ [tok]) (warnings ++ ws2) ts ws ?_ h t ht
          intro y hy
          rcases List.mem_append.mp hy with hy1 | hy2
          · exact hinv y hy1
          · rw [List.mem_singleton] at hy2
            subst hy2
            exact scan_step_bounds _ _ _ _ _ _ _ _ _ heq

/-- Claim C2 (amended): in every successfully scanned token stream,
every finished `REPEAT` token has a concrete lower bound ≥ 0, and its
upper bound is either a concrete value ≥ 0 or `-1` — but `-1` itself is
the unbounded marker stored in the token and handed out by
`get_repeat_upper` for quantifiers of the form `\x7bn,\x7d`; no
distinct "unbounded" marker exists (see the counterexample). -/
theorem C2_repeat_token_bounds (p : List Char) (ts : List Token) (ws : List String)
    (h : init p = .ok (ts, ws)) :
    ∀ t ∈ ts, t.type = .REPEAT →
      0 ≤ t.repeat_lower ∧ (0 ≤ t.repeat_upper ∨ t.repeat_upper = -1) :=
  scan_loop_bounds (p.length + 1) p 0 false [] [] ts ws (by simp) h

/-- Witness for C2's amended theorem: the pattern `a\x7b2\x7d` scans to
a stream whose `REPEAT` token satisfies the bound invariant. -/
theorem C2_repeat_bounds_witness :
    init ['a', lbrace, '2', rbrace] = .ok ([{ type := .CHARACTER, character := 'a' },
      { type := .REPEAT, character := lbrace, repeat_lower := 2, repeat_upper := 2 }], []) ∧
    (0 ≤ (2 : Int) ∧ (0 ≤ (2 : Int) ∨ (2 : Int) = -1)) :=
  ⟨rfl, C2_repeat_token_bounds ['a', lbrace, '2', rbrace] _ _ rfl
    { type := .REPEAT, character := lbrace, repeat_lower := 2, repeat_upper := 2 }
    (by decide) rfl⟩

end Egret
